import Mathlib

/-!
A shallow embedding of the PomodoroTrack backend (src/backend/server.py) in Lean 4.

Modelling conventions:

* MongoDB collections are Lean lists; `find_one(filter)` is `List.find?` (first
  match in natural order), `find(filter).to_list(n)` is `filter` followed by
  `take n`, `update_one` rewrites the first matching document, `delete_one`
  removes the first matching document and reports the deleted count.
* Each route handler becomes a pure function of its request data, the resolved
  caller, the values the code obtains from the environment (fresh uuid4 ids,
  the current UTC time, the Google tokeninfo HTTP response) and the store.
  It returns the FastAPI outcome — `Except Err response` mirroring
  `HTTPException(status_code, detail)` — together with the list of store
  mutations the handler executed, in order.  `applyOps` replays them.
* Timestamps: `datetime.now(timezone.utc)` is modelled as a `Timestamp` with a
  `day` ordinal (days since a fixed Monday epoch, so Python's
  `weekday()` is `day % 7` with Monday = 0) and a `tod` component (the
  time-of-day remainder).  `strftime "%Y-%m-%d"` of a timestamp is its `day`;
  `createdAt.startswith(dateString)` is equality of the `day` components; the
  lexicographic order of ISO strings is the lexicographic order on
  `(day, tod)`.
* `hashlib.sha256(...).hexdigest()` is an external one-way digest; no claim
  depends on its value, so it is modelled as an opaque but computable string
  tagging function.
-/

namespace Pomodoro

/-- A UTC instant: `day` = calendar-day ordinal counted from a Monday epoch
(so Python `weekday()` = `day % 7`, Monday = 0), `tod` = position within the
day.  ISO-8601 string comparison corresponds to lexicographic order on
`(day, tod)`, and the `%Y-%m-%d` prefix is `day`. -/
structure Timestamp where
  day : Nat
  tod : Nat
deriving Repr, DecidableEq

/-- Stand-in for `hashlib.sha256(s.encode()).hexdigest()`: an external one-way
digest, modelled as an opaque but computable string tag. -/
def sha256Hex (s : String) : String :=
  "sha256<" ++ s ++ ">"

/-- `generate_token(uid)` (server.py line 180): digest of the uid and the
current time. -/
def generate_token (uid : String) (now : Timestamp) : String :=
  sha256Hex (uid ++ "-" ++ toString now.day ++ "T" ++ toString now.tod)

/-- A user document in the `users` collection (fields written by `register`). -/
structure User where
  uid : String
  email : String
  password : String
  displayName : String
  companyId : Option String
  role : String
  token : Option String
  firebaseUid : Option String
  createdAt : Timestamp
deriving Repr, DecidableEq

/-- A company document in the `companies` collection. -/
structure Company where
  companyId : String
  name : String
  subscriptionStatus : String
  ownerId : String
  createdAt : Timestamp
deriving Repr, DecidableEq

/-- A project document in the `projects` collection. -/
structure Project where
  projectId : String
  companyId : String
  name : String
  createdAt : Timestamp
deriving Repr, DecidableEq

/-- An activity document in the `activities` collection. -/
structure Activity where
  activityId : String
  projectId : String
  companyId : String
  name : String
deriving Repr, DecidableEq

/-- A time-record document in the `timeRecords` collection. -/
structure TimeRecord where
  recordId : String
  companyId : String
  userId : String
  projectId : String
  activityId : Option String
  durationMinutes : Int
  pomodoros : Int
  notes : String
  createdAt : Timestamp
  updatedAt : Timestamp
deriving Repr, DecidableEq

/-- The document store: the five collections the handlers touch. -/
structure Store where
  users : List User
  companies : List Company
  projects : List Project
  activities : List Activity
  timeRecords : List TimeRecord
deriving Repr, DecidableEq

/-- A single store mutation, as executed by a handler. -/
abbrev StoreOp := Store → Store

/-- Replay a handler's mutations, in order. -/
def applyOps (s : Store) (ops : List StoreOp) : Store :=
  ops.foldl (fun t op => op t) s

/-- Mutation touching only the `users` collection. -/
def onUsers (f : List User → List User) : StoreOp :=
  fun t => { t with users := f t.users }

/-- Mutation touching only the `companies` collection. -/
def onCompanies (f : List Company → List Company) : StoreOp :=
  fun t => { t with companies := f t.companies }

/-- Mutation touching only the `projects` collection. -/
def onProjects (f : List Project → List Project) : StoreOp :=
  fun t => { t with projects := f t.projects }

/-- Mutation touching only the `activities` collection. -/
def onActivities (f : List Activity → List Activity) : StoreOp :=
  fun t => { t with activities := f t.activities }

/-- Mutation touching only the `timeRecords` collection. -/
def onTimeRecords (f : List TimeRecord → List TimeRecord) : StoreOp :=
  fun t => { t with timeRecords := f t.timeRecords }

/-- `HTTPException(status_code, detail)`. -/
structure Err where
  status : Nat
  detail : String
deriving Repr, DecidableEq

/-- A handler outcome: HTTP result plus the mutations executed along the way
(mutations happen even when a later step raises, exactly as in the code). -/
def HResult (ρ : Type) := Except Err ρ × List StoreOp

/-- `update_one(filter, {"$set": patch})`: rewrite the first matching
document. -/
def updateFirst (p : α → Bool) (f : α → α) : List α → List α
  | [] => []
  | x :: xs => if p x then f x :: xs else x :: updateFirst p f xs

/-- `delete_one(filter)`: remove the first matching document and report
`deleted_count`. -/
def deleteFirst (p : α → Bool) : List α → List α × Nat
  | [] => ([], 0)
  | x :: xs =>
    if p x then (xs, 1)
    else ((x :: (deleteFirst p xs).1, (deleteFirst p xs).2))

/- ============== AUTH HELPERS ============== -/

/-- The JSON body Google's tokeninfo endpoint returns (the fields the code
reads). -/
structure TokenInfo where
  aud : Option String
  azp : Option String
  email : Option String
deriving Repr, DecidableEq

/-- The HTTP response from `https://www.googleapis.com/oauth2/v3/tokeninfo`;
`none` models a transport exception. -/
structure HttpResp where
  statusCode : Nat
  body : TokenInfo
deriving Repr, DecidableEq

def FIREBASE_PROJECT_ID : String := "pomodorotrack"

/-- Python truthiness of `data.get('azp')`: present and non-empty. -/
def truthyOpt : Option String → Bool
  | none => false
  | some s => !(s == "")

/-- `verify_firebase_token(token)` (server.py lines 143-156), with the outbound
HTTP call made explicit: returns the tokeninfo body when the status is 200 and
the audience matches the Firebase project (or any `azp` is present); `none` on
any other response or on a transport exception. -/
def verify_firebase_token (resp : Option HttpResp) : Option TokenInfo :=
  match resp with
  | none => none
  | some r =>
    if r.statusCode == 200 then
      if r.body.aud == some FIREBASE_PROJECT_ID || truthyOpt r.body.azp then
        some r.body
      else none
    else none

/-- `get_current_user` (server.py lines 158-178): resolve the bearer
credential to a user — first by exact stored-token match, then by Firebase
verification plus email lookup, where Python's `if email:` truthiness guard
skips the lookup when the verified token's email is absent OR the empty
string; 401 otherwise.  `credentials = none` models a request with no bearer
header. -/
def get_current_user (credentials : Option String) (resp : Option HttpResp)
    (s : Store) : Except Err User :=
  match credentials with
  | none => .error ⟨401, "No autorizado"⟩
  | some token =>
    match s.users.find? (fun u => u.token == some token) with
    | some u => .ok u
    | none =>
      match verify_firebase_token resp with
      | some fd =>
        match fd.email with
        | some email =>
          if email == "" then .error ⟨401, "Token inválido"⟩
          else
            match s.users.find? (fun u => u.email == email) with
            | some u => .ok u
            | none => .error ⟨401, "Token inválido"⟩
        | none => .error ⟨401, "Token inválido"⟩
      | none => .error ⟨401, "Token inválido"⟩

/-- Python `x or default` on an optional string: `None` and `""` are falsy. -/
def strOr (v : Option String) (d : String) : String :=
  match v with
  | some s => if s == "" then d else s
  | none => d

/- ============== AUTH ROUTES ============== -/

/-- Request body of POST /auth/register. -/
structure UserRegister where
  email : String
  password : String
  displayName : String
  companyName : Option String
  firebaseUid : Option String
deriving Repr, DecidableEq

/-- The `user` object of the register response. -/
structure RegisterUserOut where
  uid : String
  email : String
  displayName : String
  companyId : Option String
  role : String
  createdAt : Timestamp
deriving Repr, DecidableEq

/-- The `company` object of the register response. -/
structure RegisterCompanyOut where
  companyId : Option String
  name : Option String
  subscriptionStatus : String
deriving Repr, DecidableEq

/-- Response of POST /auth/register. -/
structure RegisterResp where
  token : String
  user : RegisterUserOut
  company : Option RegisterCompanyOut
deriving Repr, DecidableEq

/-- `register` (server.py lines 185-240).  `freshUid` and `freshCompanyId` are
the `uuid.uuid4()` values the code draws, `now` the clock reading. -/
def register (data : UserRegister) (freshUid freshCompanyId : String)
    (now : Timestamp) (s : Store) : HResult RegisterResp :=
  match s.users.find? (fun u => u.email == data.email) with
  | some _ => (.error ⟨400, "El correo ya está registrado"⟩, [])
  | none =>
    let uid := strOr data.firebaseUid freshUid
    let token := generate_token uid now
    let companyId : Option String :=
      if truthyOpt data.companyName then some freshCompanyId else none
    let role := if truthyOpt data.companyName then "owner" else "user"
    let companyOps : List StoreOp :=
      if truthyOpt data.companyName then
        [onCompanies (fun cs =>
          cs ++ [⟨freshCompanyId, data.companyName.getD "", "active", uid, now⟩])]
      else []
    let user_doc : User :=
      ⟨uid, data.email, sha256Hex data.password, data.displayName, companyId,
        role, some token, data.firebaseUid, now⟩
    let companyOut : Option RegisterCompanyOut :=
      if truthyOpt data.companyName then
        some ⟨companyId, data.companyName, "active"⟩
      else none
    (.ok ⟨token, ⟨uid, data.email, data.displayName, companyId, role, now⟩, companyOut⟩,
      companyOps ++ [onUsers (fun us => us ++ [user_doc])])

/-- Request body of POST /auth/login. -/
structure UserLogin where
  email : String
  password : String
deriving Repr, DecidableEq

/-- Response of POST /auth/login (the `{"_id": 0, "password": 0}` projection
on the returned user is not modelled; no claim reads those fields). -/
structure LoginResp where
  token : String
  user : User
  company : Option Company
deriving Repr, DecidableEq

/-- `login` (server.py lines 242-264): exact (email, passwordHash) lookup,
then a fresh token overwrites the stored one. -/
def login (data : UserLogin) (now : Timestamp) (s : Store) : HResult LoginResp :=
  let password_hash := sha256Hex data.password
  match s.users.find? (fun u => u.email == data.email && u.password == password_hash) with
  | none => (.error ⟨401, "Credenciales inválidas"⟩, [])
  | some user =>
    let token := generate_token user.uid now
    let op : StoreOp :=
      onUsers (updateFirst (fun u => u.uid == user.uid)
        (fun u => { u with token := some token }))
    let company :=
      if truthyOpt user.companyId then
        s.companies.find? (fun c => some c.companyId == user.companyId)
      else none
    (.ok ⟨token, user, company⟩, [op])

/-- Response of GET /auth/me (the password/token strip on the user projection
is not modelled; no claim reads those fields). -/
structure MeResp where
  user : User
  company : Option Company
deriving Repr, DecidableEq

/-- `get_me` (server.py lines 266-273). -/
def get_me (cu : User) (s : Store) : HResult MeResp :=
  let company :=
    if truthyOpt cu.companyId then
      s.companies.find? (fun c => some c.companyId == cu.companyId)
    else none
  (.ok ⟨cu, company⟩, [])

/-- `logout` (server.py lines 275-278): null out the caller's stored token. -/
def logout (cu : User) : HResult String :=
  (.ok "Sesión cerrada",
    [onUsers (updateFirst (fun u => u.uid == cu.uid)
      (fun u => { u with token := none }))])

/- ============== COMPANY ROUTES ============== -/

/-- Request body of POST /companies. -/
structure CompanyCreate where
  name : String
deriving Repr, DecidableEq

/-- `create_company` (server.py lines 282-304): insert the company, then
attach the caller as owner. -/
def create_company (data : CompanyCreate) (cu : User) (freshCompanyId : String)
    (now : Timestamp) : HResult Company :=
  if truthyOpt cu.companyId then (.error ⟨400, "Ya perteneces a una empresa"⟩, [])
  else
    let company_doc : Company := ⟨freshCompanyId, data.name, "active", cu.uid, now⟩
    (.ok company_doc,
      [onCompanies (fun cs => cs ++ [company_doc]),
       onUsers (updateFirst (fun u => u.uid == cu.uid)
        (fun u => { u with companyId := some freshCompanyId, role := "owner" }))])

/-- `get_current_company` (server.py lines 306-315). -/
def get_current_company (cu : User) (s : Store) : HResult Company :=
  if !truthyOpt cu.companyId then (.error ⟨404, "No perteneces a ninguna empresa"⟩, [])
  else
    match s.companies.find? (fun c => some c.companyId == cu.companyId) with
    | none => (.error ⟨404, "Empresa no encontrada"⟩, [])
    | some c => (.ok c, [])

/- ============== PROJECT ROUTES ============== -/

/-- Request body of POST /projects. -/
structure ProjectCreate where
  name : String
deriving Repr, DecidableEq

/-- Request body of PUT /projects/:id. -/
structure ProjectUpdate where
  name : Option String
deriving Repr, DecidableEq

/-- The tenant-scoped project filter `{"projectId": id, "companyId": cid}`. -/
def projectScope (project_id : String) (cu : User) (p : Project) : Bool :=
  p.projectId == project_id && some p.companyId == cu.companyId

/-- `create_project` (server.py lines 321-337). -/
def create_project (data : ProjectCreate) (cu : User) (freshProjectId : String)
    (now : Timestamp) : HResult Project :=
  if !truthyOpt cu.companyId then (.error ⟨400, "Necesitas pertenecer a una empresa"⟩, [])
  else
    let project_doc : Project := ⟨freshProjectId, cu.companyId.getD "", data.name, now⟩
    (.ok project_doc, [onProjects (fun ps => ps ++ [project_doc])])

/-- `get_projects` (server.py lines 339-349): empty list for a company-less
caller, else the tenant's projects, capped at 100. -/
def get_projects (cu : User) (s : Store) : HResult (List Project) :=
  if !truthyOpt cu.companyId then (.ok [], [])
  else
    (.ok ((s.projects.filter (fun p => some p.companyId == cu.companyId)).take 100), [])

/-- `get_project` (server.py lines 351-361). -/
def get_project (project_id : String) (cu : User) (s : Store) : HResult Project :=
  match s.projects.find? (projectScope project_id cu) with
  | none => (.error ⟨404, "Proyecto no encontrado"⟩, [])
  | some p => (.ok p, [])

/-- `update_project` (server.py lines 363-378): scoped existence check, then
an update filtered by `projectId` alone, then an unscoped re-read for the
response (a failed re-read would crash the handler: modelled as a 500). -/
def update_project (project_id : String) (data : ProjectUpdate) (cu : User)
    (s : Store) : HResult Project :=
  match s.projects.find? (projectScope project_id cu) with
  | none => (.error ⟨404, "Proyecto no encontrado"⟩, [])
  | some _ =>
    let ops : List StoreOp :=
      match data.name with
      | some n =>
        [onProjects (updateFirst (fun p => p.projectId == project_id)
          (fun p => { p with name := n }))]
      | none => []
    let s1 := applyOps s ops
    match s1.projects.find? (fun p => p.projectId == project_id) with
    | some updated => (.ok updated, ops)
    | none => (.error ⟨500, "Internal Server Error"⟩, ops)

/-- `delete_project` (server.py lines 380-390): scoped `delete_one`; 404 when
nothing matched (the delete still ran, as in the code — it deleted nothing). -/
def delete_project (project_id : String) (cu : User) (s : Store) : HResult String :=
  let op : StoreOp :=
    onProjects (fun ps => (deleteFirst (projectScope project_id cu) ps).1)
  if (deleteFirst (projectScope project_id cu) s.projects).2 == 0 then
    (.error ⟨404, "Proyecto no encontrado"⟩, [op])
  else (.ok "Proyecto eliminado", [op])

/- ============== ACTIVITY ROUTES ============== -/

/-- Request body of POST /activities. -/
structure ActivityCreate where
  projectId : String
  name : String
deriving Repr, DecidableEq

/-- The tenant-scoped activity filter. -/
def activityScope (activity_id : String) (cu : User) (a : Activity) : Bool :=
  a.activityId == activity_id && some a.companyId == cu.companyId

/-- `create_activity` (server.py lines 396-419): the referenced project must
belong to the caller's company. -/
def create_activity (data : ActivityCreate) (cu : User) (freshActivityId : String)
    (s : Store) : HResult Activity :=
  if !truthyOpt cu.companyId then (.error ⟨400, "Necesitas pertenecer a una empresa"⟩, [])
  else
    match s.projects.find? (projectScope data.projectId cu) with
    | none => (.error ⟨404, "Proyecto no encontrado"⟩, [])
    | some _ =>
      let activity_doc : Activity :=
        ⟨freshActivityId, data.projectId, cu.companyId.getD "", data.name⟩
      (.ok activity_doc, [onActivities (fun as => as ++ [activity_doc])])

/-- `get_activities` (server.py lines 421-431). -/
def get_activities (projectId : Option String) (cu : User) (s : Store) :
    HResult (List Activity) :=
  if !truthyOpt cu.companyId then (.ok [], [])
  else
    let q := fun (a : Activity) =>
      some a.companyId == cu.companyId &&
        (if truthyOpt projectId then some a.projectId == projectId else true)
    (.ok ((s.activities.filter q).take 100), [])

/-- `delete_activity` (server.py lines 433-443). -/
def delete_activity (activity_id : String) (cu : User) (s : Store) : HResult String :=
  let op : StoreOp :=
    onActivities (fun as => (deleteFirst (activityScope activity_id cu) as).1)
  if (deleteFirst (activityScope activity_id cu) s.activities).2 == 0 then
    (.error ⟨404, "Actividad no encontrada"⟩, [op])
  else (.ok "Actividad eliminada", [op])

/- ============== TIME RECORDS ROUTES ============== -/

/-- Request body of POST /time-records (`pomodoros` defaults to 1, `notes`
to `""` at the Pydantic layer; the Lean caller passes the defaulted values). -/
structure TimeRecordCreate where
  projectId : String
  activityId : Option String
  durationMinutes : Int
  pomodoros : Int
  notes : Option String
deriving Repr, DecidableEq

/-- Request body of PUT /time-records/:id. -/
structure TimeRecordUpdate where
  durationMinutes : Option Int
  pomodoros : Option Int
  notes : Option String
deriving Repr, DecidableEq

/-- The user-and-tenant-scoped time-record filter
`{"recordId": id, "companyId": cid, "userId": uid}`. -/
def recordScope (record_id : String) (cu : User) (r : TimeRecord) : Bool :=
  r.recordId == record_id && some r.companyId == cu.companyId && r.userId == cu.uid

/-- `create_time_record` (server.py lines 449-488): company required, project
checked against the tenant, activity (when given) checked against the tenant. -/
def create_time_record (data : TimeRecordCreate) (cu : User) (freshRecordId : String)
    (now : Timestamp) (s : Store) : HResult TimeRecord :=
  if !truthyOpt cu.companyId then (.error ⟨400, "Necesitas pertenecer a una empresa"⟩, [])
  else
    match s.projects.find? (projectScope data.projectId cu) with
    | none => (.error ⟨404, "Proyecto no encontrado"⟩, [])
    | some _ =>
      let record_doc : TimeRecord :=
        ⟨freshRecordId, cu.companyId.getD "", cu.uid, data.projectId, data.activityId,
          data.durationMinutes, data.pomodoros, strOr data.notes "", now, now⟩
      let okResult : HResult TimeRecord :=
        (.ok record_doc, [onTimeRecords (fun rs => rs ++ [record_doc])])
      if truthyOpt data.activityId then
        match s.activities.find? (fun a =>
            some a.activityId == data.activityId && some a.companyId == cu.companyId) with
        | none => (.error ⟨404, "Actividad no encontrada"⟩, [])
        | some _ => okResult
      else okResult

/-- ISO-timestamp comparison, as Boolean `≤` on `(day, tod)`. -/
def tsLeB (a b : Timestamp) : Bool :=
  a.day < b.day || (a.day == b.day && a.tod ≤ b.tod)

/-- The `.sort("createdAt", -1)` order: descending by creation instant. -/
def createdDesc (a b : TimeRecord) : Prop :=
  tsLeB b.createdAt a.createdAt = true

instance : DecidableRel createdDesc := fun _ _ => Bool.decEq _ _

/-- The list filter of GET /time-records: tenant and user scope plus the
optional (truthy) `projectId` / `activityId` query params. -/
def timeRecordQuery (projectId activityId : Option String) (cu : User)
    (r : TimeRecord) : Bool :=
  some r.companyId == cu.companyId && r.userId == cu.uid &&
    (if truthyOpt projectId then some r.projectId == projectId else true) &&
    (if truthyOpt activityId then r.activityId == activityId else true)

/-- `get_time_records` (server.py lines 490-509): scoped query, descending by
`createdAt`, capped at 500. -/
def get_time_records (projectId activityId : Option String) (cu : User)
    (s : Store) : HResult (List TimeRecord) :=
  if !truthyOpt cu.companyId then (.ok [], [])
  else
    (.ok (((s.timeRecords.filter (timeRecordQuery projectId activityId cu)).insertionSort
      createdDesc).take 500), [])

/-- `get_time_record` (server.py lines 511-522). -/
def get_time_record (record_id : String) (cu : User) (s : Store) : HResult TimeRecord :=
  match s.timeRecords.find? (recordScope record_id cu) with
  | none => (.error ⟨404, "Registro no encontrado"⟩, [])
  | some r => (.ok r, [])

/-- The `$set` patch of PUT /time-records/:id: the non-null request fields
plus a refreshed `updatedAt`. -/
def applyRecordPatch (data : TimeRecordUpdate) (now : Timestamp)
    (r : TimeRecord) : TimeRecord :=
  { r with
    durationMinutes := data.durationMinutes.getD r.durationMinutes,
    pomodoros := data.pomodoros.getD r.pomodoros,
    notes := data.notes.getD r.notes,
    updatedAt := now }

/-- `update_time_record` (server.py lines 524-541): scoped existence check,
update filtered by `recordId` alone, unscoped re-read for the response (a
failed re-read would crash the handler: modelled as a 500). -/
def update_time_record (record_id : String) (data : TimeRecordUpdate) (cu : User)
    (now : Timestamp) (s : Store) : HResult TimeRecord :=
  match s.timeRecords.find? (recordScope record_id cu) with
  | none => (.error ⟨404, "Registro no encontrado"⟩, [])
  | some _ =>
    let op : StoreOp :=
      onTimeRecords (updateFirst (fun r => r.recordId == record_id)
        (applyRecordPatch data now))
    let s1 := op s
    match s1.timeRecords.find? (fun r => r.recordId == record_id) with
    | some updated => (.ok updated, [op])
    | none => (.error ⟨500, "Internal Server Error"⟩, [op])

/-- `delete_time_record` (server.py lines 543-554). -/
def delete_time_record (record_id : String) (cu : User) (s : Store) : HResult String :=
  let op : StoreOp :=
    onTimeRecords (fun rs => (deleteFirst (recordScope record_id cu) rs).1)
  if (deleteFirst (recordScope record_id cu) s.timeRecords).2 == 0 then
    (.error ⟨404, "Registro no encontrado"⟩, [op])
  else (.ok "Registro eliminado", [op])

/- ============== STATS ROUTES ============== -/

/-- Response of GET /stats/today (`date` is the `%Y-%m-%d` day ordinal). -/
structure TodayStats where
  date : Nat
  pomodorosCompleted : Int
  totalWorkTime : Int
  totalMinutes : Int
  recordsCount : Nat
deriving Repr, DecidableEq

/-- `sum(r.get("pomodoros", 0) for r in rs)`. -/
def sumPomodoros (rs : List TimeRecord) : Int :=
  (rs.map (fun r => r.pomodoros)).sum

/-- `sum(r.get("durationMinutes", 0) for r in rs)`. -/
def sumMinutes (rs : List TimeRecord) : Int :=
  (rs.map (fun r => r.durationMinutes)).sum

/-- The filter of GET /stats/today: caller's records created today
(`createdAt` regex-anchored to today's `%Y-%m-%d`). -/
def todayQuery (cu : User) (today : Timestamp) (r : TimeRecord) : Bool :=
  r.userId == cu.uid && some r.companyId == cu.companyId &&
    r.createdAt.day == today.day

/-- `get_today_stats` (server.py lines 558-578): fetch capped at 100, then
in-memory sums; `totalWorkTime` is minutes converted to seconds. -/
def get_today_stats (cu : User) (today : Timestamp) (s : Store) : HResult TodayStats :=
  let records := (s.timeRecords.filter (todayQuery cu today)).take 100
  (.ok ⟨today.day, sumPomodoros records, sumMinutes records * 60,
    sumMinutes records, records.length⟩, [])

/-- One bucket of the week response. -/
structure DayStat where
  pomodoros : Int
  totalTime : Int
deriving Repr, DecidableEq

/-- Response of GET /stats/week; `dailyStats` is the date-keyed mapping in
insertion order. -/
structure WeekStats where
  weekStart : Nat
  weekEnd : Nat
  dailyStats : List (Nat × DayStat)
  totalPomodoros : Int
  totalTime : Int
deriving Repr, DecidableEq

/-- The filter of the week fetch: the caller's records (all of them — the date
restriction happens in memory), capped at 500. -/
def weekQuery (cu : User) (r : TimeRecord) : Bool :=
  r.userId == cu.uid && some r.companyId == cu.companyId

/-- `get_week_stats` (server.py lines 580-611): Monday-start window around
today (`weekday()` = `day % 7`), per-day buckets over a capped fetch, totals
summed from the buckets. -/
def get_week_stats (cu : User) (today : Timestamp) (s : Store) : HResult WeekStats :=
  let week_start := today.day - today.day % 7
  let dates := (List.range 7).map (fun i => week_start + i)
  let records := (s.timeRecords.filter (weekQuery cu)).take 500
  let daily_stats := dates.map (fun d =>
    let day_records := records.filter (fun r => r.createdAt.day == d)
    (d, DayStat.mk (sumPomodoros day_records) (sumMinutes day_records * 60)))
  let total_pomodoros := (daily_stats.map (fun p => p.2.pomodoros)).sum
  let total_time := (daily_stats.map (fun p => p.2.totalTime)).sum
  (.ok ⟨dates.headD 0, dates.getLastD 0, daily_stats, total_pomodoros, total_time⟩, [])

/-- One entry of the by-project response. -/
structure ProjectStat where
  projectId : String
  projectName : String
  color : String
  totalTime : Int
  totalMinutes : Int
  pomodoros : Int
deriving Repr, DecidableEq

/-- One step of the by-project grouping loop (server.py lines 631-645):
initialise the bucket on first sight of a project id, then accumulate. -/
def upsertStat (project_map : List Project) (acc : List ProjectStat)
    (r : TimeRecord) : List ProjectStat :=
  if acc.any (fun st => st.projectId == r.projectId) then
    acc.map (fun st =>
      if st.projectId == r.projectId then
        let m := st.totalMinutes + r.durationMinutes
        { st with
          totalMinutes := m,
          totalTime := m * 60,
          pomodoros := st.pomodoros + r.pomodoros }
      else st)
  else
    let name :=
      match project_map.find? (fun p => p.projectId == r.projectId) with
      | some p => p.name
      | none => "Desconocido"
    acc ++ [⟨r.projectId, name, "#E91E63", r.durationMinutes * 60,
      r.durationMinutes, r.pomodoros⟩]

/-- `get_project_stats` (server.py lines 613-647): empty list for a
company-less caller; otherwise group the caller's records (fetch capped at
1000) by project id against the tenant's projects (fetch capped at 100). -/
def get_project_stats (cu : User) (s : Store) : HResult (List ProjectStat) :=
  if !truthyOpt cu.companyId then (.ok [], [])
  else
    let records := (s.timeRecords.filter (weekQuery cu)).take 1000
    let projects := (s.projects.filter (fun p => some p.companyId == cu.companyId)).take 100
    (.ok (records.foldl (upsertStat projects) []), [])

/- ============== CONCRETE FIXTURES ============== -/

/-- A fixed instant: day 10 of the epoch (a Thursday, since day 0 is a
Monday), time-of-day 5. -/
def ts0 : Timestamp := ⟨10, 5⟩

/-- Tenant-A owner. -/
def uAlice : User :=
  ⟨"alice", "alice@x.com", "hA", "Alice", some "coA", "owner", some "tok-alice", none, ts0⟩

/-- Tenant-B owner. -/
def uBob : User :=
  ⟨"bob", "bob@x.com", "hB", "Bob", some "coB", "owner", some "tok-bob", none, ts0⟩

/-- A second member of tenant B (same company as Bob, different uid). -/
def uCarol : User :=
  ⟨"carol", "carol@x.com", "hC", "Carol", some "coB", "user", some "tok-carol", none, ts0⟩

/-- An authenticated user who belongs to no company. -/
def uNoCompany : User :=
  ⟨"nomad", "nomad@x.com", "hN", "Nomad", none, "user", some "tok-nomad", none, ts0⟩

def projAlpha : Project := ⟨"proj-1", "coA", "Alpha", ts0⟩

def projBeta : Project := ⟨"proj-2", "coB", "Beta", ts0⟩

def actAlpha : Activity := ⟨"act-1", "proj-1", "coA", "Design"⟩

/-- A record created by Alice in tenant A. -/
def recAlice : TimeRecord :=
  ⟨"rec-1", "coA", "alice", "proj-1", none, 25, 1, "morning", ts0, ts0⟩

/-- A record created by Bob in tenant B. -/
def recBob : TimeRecord :=
  ⟨"rec-2", "coB", "bob", "proj-2", none, 30, 2, "afternoon", ts0, ts0⟩

/-- A populated two-tenant store. -/
def baseStore : Store :=
  ⟨[uAlice, uBob, uCarol, uNoCompany], [⟨"coA", "Acme", "active", "alice", ts0⟩],
    [projAlpha, projBeta], [actAlpha], [recAlice, recBob]⟩

/-- A store in which Bob has 101 records dated day 10. -/
def bigStore : Store :=
  ⟨[uBob], [], [projBeta], [], List.replicate 101 recBob⟩

/-- A store with no documents at all. -/
def emptyStore : Store := ⟨[], [], [], [], []⟩

/-- A store holding a single user whose stored token is `other-token`. -/
def c2Store : Store :=
  ⟨[⟨"u1", "a@x.com", "h", "U", none, "user", some "other-token", none, ts0⟩],
    [], [], [], []⟩

/-- A Google tokeninfo answer: HTTP 200, audience equal to the Firebase
project, carrying the email of the stored user. -/
def c2Resp : HttpResp := ⟨200, ⟨some "pomodorotrack", none, some "a@x.com"⟩⟩

/- ============== GENERAL LEMMAS ABOUT THE STORE PRIMITIVES ============== -/

theorem deleteFirst_nil {α : Type} (p : α → Bool) : deleteFirst p [] = ([], 0) := rfl

theorem deleteFirst_cons {α : Type} (p : α → Bool) (x : α) (xs : List α) :
    deleteFirst p (x :: xs) =
      if p x then (xs, 1)
      else ((x :: (deleteFirst p xs).1, (deleteFirst p xs).2)) := rfl

theorem updateFirst_nil {α : Type} (k : α → Bool) (f : α → α) :
    updateFirst k f [] = [] := rfl

theorem updateFirst_cons {α : Type} (k : α → Bool) (f : α → α) (x : α) (xs : List α) :
    updateFirst k f (x :: xs) =
      if k x then f x :: xs else x :: updateFirst k f xs := rfl

theorem deleteFirst_eq_of_forall_false {α : Type} {p : α → Bool} {l : List α}
    (h : ∀ x ∈ l, p x = false) : deleteFirst p l = (l, 0) := by
  induction l with
  | nil => rfl
  | cons a t ih =>
    have ha := h a (List.mem_cons_self a t)
    simp [deleteFirst_cons, ha, ih (fun x hx => h x (List.mem_cons_of_mem a hx))]

theorem deleteFirst_eq_of_count_zero {α : Type} {p : α → Bool} {l : List α}
    (h : (deleteFirst p l).2 = 0) : (deleteFirst p l).1 = l := by
  induction l with
  | nil => rfl
  | cons a t ih =>
    by_cases hp : p a = true
    · rw [deleteFirst_cons, if_pos hp] at h
      cases h
    · rw [deleteFirst_cons, if_neg hp] at h ⊢
      simpa using ih h

theorem mem_updateFirst_of_key_false {α : Type} {k : α → Bool} {f : α → α}
    {l : List α} {x : α} (hx : x ∈ l) (hk : k x = false) :
    x ∈ updateFirst k f l := by
  induction l with
  | nil => cases hx
  | cons a t ih =>
    rcases List.mem_cons.mp hx with rfl | hmem
    · simp [updateFirst, hk]
    · by_cases ha : k a = true
      · simp [updateFirst, ha, List.mem_cons_of_mem _ hmem]
      · simp only [Bool.not_eq_true] at ha
        simp [updateFirst, ha, List.mem_cons]
        exact Or.inr (by simpa using ih hmem)

theorem mem_updateFirst {α : Type} {k : α → Bool} {f : α → α} {l : List α} {x : α}
    (h : x ∈ updateFirst k f l) : x ∈ l ∨ ∃ y ∈ l, x = f y := by
  induction l with
  | nil => cases h
  | cons a t ih =>
    by_cases ha : k a = true
    · simp only [updateFirst, ha, if_true, List.mem_cons] at h
      rcases h with rfl | h
      · exact Or.inr ⟨a, List.mem_cons_self a t, rfl⟩
      · exact Or.inl (List.mem_cons_of_mem a h)
    · simp only [Bool.not_eq_true] at ha
      simp only [updateFirst, ha, Bool.false_eq_true, if_false, List.mem_cons] at h
      rcases h with rfl | h
      · exact Or.inl (List.mem_cons_self x t)
      · rcases ih h with h1 | ⟨y, hy, hxy⟩
        · exact Or.inl (List.mem_cons_of_mem a h1)
        · exact Or.inr ⟨y, List.mem_cons_of_mem a hy, hxy⟩

theorem find?_updateFirst_eq {α : Type} {k : α → Bool} {f : α → α} {l : List α}
    {x : α} (h : l.find? k = some x) (hk : ∀ y, k (f y) = k y) :
    (updateFirst k f l).find? k = some (f x) := by
  induction l with
  | nil => cases h
  | cons a t ih =>
    by_cases ha : k a = true
    · rw [List.find?_cons_of_pos _ ha] at h
      cases h
      simp [updateFirst, ha, List.find?_cons_of_pos _ ((hk x).trans ha)]
    · simp only [Bool.not_eq_true] at ha
      rw [List.find?_cons_of_neg _ (by simp [ha])] at h
      rw [updateFirst_cons, if_neg (by simp [ha]),
        List.find?_cons_of_neg _ (by simp [ha])]
      exact ih h

theorem find?_of_first_key {α : Type} {k p : α → Bool} {l : List α} {x : α}
    (hk : l.find? k = some x) (hp : p x = true)
    (himp : ∀ y, p y = true → k y = true) :
    l.find? p = some x := by
  induction l with
  | nil => cases hk
  | cons a t ih =>
    by_cases ha : k a = true
    · rw [List.find?_cons_of_pos _ ha] at hk
      cases hk
      exact List.find?_cons_of_pos _ hp
    · simp only [Bool.not_eq_true] at ha
      rw [List.find?_cons_of_neg _ (by simp [ha])] at hk
      have hpa : ¬ p a = true := fun hpa => by simp [himp a hpa] at ha
      rw [List.find?_cons_of_neg _ (by simpa using hpa)]
      exact ih hk

theorem onProjects_eq_self {f : List Project → List Project} {s : Store}
    (h : f s.projects = s.projects) : onProjects f s = s := by
  cases s
  simp only [onProjects] at h ⊢
  rw [h]

theorem onActivities_eq_self {f : List Activity → List Activity} {s : Store}
    (h : f s.activities = s.activities) : onActivities f s = s := by
  cases s
  simp only [onActivities] at h ⊢
  rw [h]

theorem onTimeRecords_eq_self {f : List TimeRecord → List TimeRecord} {s : Store}
    (h : f s.timeRecords = s.timeRecords) : onTimeRecords f s = s := by
  cases s
  simp only [onTimeRecords] at h ⊢
  rw [h]

theorem map_fst_pairing {β : Type} (g : Nat → β) (ds : List Nat) :
    (ds.map (fun d => (d, g d))).map Prod.fst = ds := by
  induction ds with
  | nil => rfl
  | cons a t ih => simp only [List.map_cons, ih]

theorem mem_take_filter {α : Type} {p : α → Bool} {l : List α} {n : Nat} {x : α}
    (h : x ∈ (l.filter p).take n) : p x = true :=
  (List.mem_filter.mp (List.take_subset _ _ h)).2

/- ============== C7: week statistics shape ============== -/

/-- C7: for every authenticated caller and store state, the week-statistics
endpoint returns exactly 7 per-day buckets, keyed by the 7 consecutive day
ordinals of the Monday-start week containing the current UTC day (`weekStart`
is a Monday, i.e. `≡ 0 mod 7`, and the window contains today); the top-level
pomodoro and time totals equal the sums of the per-day values. -/
theorem c7_week_stats_shape (cu : User) (today : Timestamp) (s : Store) :
    ∃ w : WeekStats, (get_week_stats cu today s).1 = Except.ok w ∧
      w.dailyStats.length = 7 ∧
      w.dailyStats.map Prod.fst =
        (List.range 7).map (fun i => today.day - today.day % 7 + i) ∧
      (w.dailyStats.map Prod.fst).Nodup ∧
      w.weekStart = today.day - today.day % 7 ∧
      w.weekStart % 7 = 0 ∧
      w.weekStart ≤ today.day ∧ today.day < w.weekStart + 7 ∧
      w.weekEnd = w.weekStart + 6 ∧
      w.totalPomodoros = (w.dailyStats.map (fun p => p.2.pomodoros)).sum ∧
      w.totalTime = (w.dailyStats.map (fun p => p.2.totalTime)).sum := by
  have hr : List.range 7 = [0, 1, 2, 3, 4, 5, 6] := rfl
  have h7 : today.day % 7 ≤ today.day := Nat.mod_le _ _
  have h8 : today.day % 7 < 7 := Nat.mod_lt _ (by omega)
  refine ⟨_, rfl, ?_, ?_, ?_, ?_, ?_, ?_, ?_, ?_, rfl, rfl⟩
  · simp [get_week_stats]
  · simp only [get_week_stats]
    rw [map_fst_pairing]
  · simp only [get_week_stats]
    rw [map_fst_pairing]
    exact List.Nodup.map (fun a b h => by omega) (List.nodup_range 7)
  · simp only [get_week_stats, hr]
    simp [List.headD]
  · simp only [get_week_stats, hr, List.map_cons, List.map_nil, List.headD_cons]
    have hdiv : today.day - today.day % 7 + 0 = 7 * (today.day / 7) := by omega
    rw [hdiv]
    exact Nat.mul_mod_right 7 _
  · simp only [get_week_stats, hr]
    simp [List.headD]
  · simp only [get_week_stats, hr]
    simp [List.headD]
    omega
  · simp only [get_week_stats, hr]
    simp [List.headD, List.getLastD]

/- ============== C10: bounded stats fetches ============== -/

/-- C10: the today-statistics endpoint aggregates over a fetch capped at 100
documents — `recordsCount` is always at most 100 and, when the caller has
more than 100 records dated today, the returned count covers exactly 100 of
them, strictly fewer than the actual number — while the time-record list
endpoint returns at most 500 records. -/
theorem c10_stats_fetch_caps (cu : User) (today : Timestamp) (s : Store)
    (pid aid : Option String) :
    ∃ t : TodayStats, (get_today_stats cu today s).1 = Except.ok t ∧
      t.recordsCount ≤ 100 ∧
      ((s.timeRecords.filter (todayQuery cu today)).length > 100 →
        t.recordsCount = 100 ∧
        t.recordsCount < (s.timeRecords.filter (todayQuery cu today)).length) ∧
      ∃ l : List TimeRecord, (get_time_records pid aid cu s).1 = Except.ok l ∧
        l.length ≤ 500 := by
  refine ⟨_, rfl, ?_, ?_, ?_⟩
  · simp [get_today_stats, List.length_take]
  · intro h
    simp [get_today_stats, List.length_take]
    omega
  · unfold get_time_records
    by_cases hc : truthyOpt cu.companyId
    · simp only [hc, Bool.not_true, Bool.false_eq_true, if_false]
      exact ⟨_, rfl, by simp [List.length_take]⟩
    · simp only [Bool.not_eq_true] at hc
      simp only [hc, Bool.not_false, if_true]
      exact ⟨[], rfl, by simp⟩

/-- Witness for C10 at a concrete over-limit store: Bob has 101 records dated
today, and the today endpoint reports exactly 100 of them. -/
theorem c10_stats_fetch_caps_witness :
    ∃ t : TodayStats, (get_today_stats uBob ts0 bigStore).1 = Except.ok t ∧
      t.recordsCount = 100 ∧
      t.recordsCount < (bigStore.timeRecords.filter (todayQuery uBob ts0)).length := by
  obtain ⟨t, h1, _, h3, _⟩ := c10_stats_fetch_caps uBob ts0 bigStore none none
  have hbig : (bigStore.timeRecords.filter (todayQuery uBob ts0)).length > 100 := by
    decide
  exact ⟨t, h1, (h3 hbig).1, (h3 hbig).2⟩

/- ============== C1: cross-tenant isolation ============== -/

/-- C1: a resource of tenant A (project, activity, time record; ids unique in
the store, as server-generated ids are) is invisible to a caller of a
different tenant B: read-one, update and delete on its exact id fail with 404
NotFound and leave the store — hence the resource — unchanged, and the list
endpoints never include it. -/
theorem c1_cross_tenant_isolation
    (s : Store) (cu : User) (b : String) (hcu : cu.companyId = some b)
    (dP : ProjectUpdate) (dR : TimeRecordUpdate) (now : Timestamp)
    (qp qa : Option String)
    (p : Project) (hpU : ∀ q ∈ s.projects, q.projectId = p.projectId → q = p)
    (hpc : p.companyId ≠ b)
    (a : Activity) (haU : ∀ q ∈ s.activities, q.activityId = a.activityId → q = a)
    (hac : a.companyId ≠ b)
    (r : TimeRecord) (hrU : ∀ q ∈ s.timeRecords, q.recordId = r.recordId → q = r)
    (hrc : r.companyId ≠ b) :
    (get_project p.projectId cu s).1 = .error ⟨404, "Proyecto no encontrado"⟩ ∧
    (update_project p.projectId dP cu s).1 = .error ⟨404, "Proyecto no encontrado"⟩ ∧
    applyOps s (update_project p.projectId dP cu s).2 = s ∧
    (delete_project p.projectId cu s).1 = .error ⟨404, "Proyecto no encontrado"⟩ ∧
    applyOps s (delete_project p.projectId cu s).2 = s ∧
    (∀ l, (get_projects cu s).1 = .ok l → p ∉ l) ∧
    (delete_activity a.activityId cu s).1 = .error ⟨404, "Actividad no encontrada"⟩ ∧
    applyOps s (delete_activity a.activityId cu s).2 = s ∧
    (∀ l, (get_activities qp cu s).1 = .ok l → a ∉ l) ∧
    (get_time_record r.recordId cu s).1 = .error ⟨404, "Registro no encontrado"⟩ ∧
    (update_time_record r.recordId dR cu now s).1 = .error ⟨404, "Registro no encontrado"⟩ ∧
    applyOps s (update_time_record r.recordId dR cu now s).2 = s ∧
    (delete_time_record r.recordId cu s).1 = .error ⟨404, "Registro no encontrado"⟩ ∧
    applyOps s (delete_time_record r.recordId cu s).2 = s ∧
    (∀ l, (get_time_records qp qa cu s).1 = .ok l → r ∉ l) := by
  have hP : ∀ q ∈ s.projects, ¬ (projectScope p.projectId cu q = true) := by
    intro q hq hcon
    simp only [projectScope, Bool.and_eq_true, beq_iff_eq] at hcon
    obtain ⟨h1, h2⟩ := hcon
    rw [hpU q hq h1, hcu] at h2
    exact hpc (Option.some_injective _ h2)
  have hA : ∀ q ∈ s.activities, ¬ (activityScope a.activityId cu q = true) := by
    intro q hq hcon
    simp only [activityScope, Bool.and_eq_true, beq_iff_eq] at hcon
    obtain ⟨h1, h2⟩ := hcon
    rw [haU q hq h1, hcu] at h2
    exact hac (Option.some_injective _ h2)
  have hR : ∀ q ∈ s.timeRecords, ¬ (recordScope r.recordId cu q = true) := by
    intro q hq hcon
    simp only [recordScope, Bool.and_eq_true, beq_iff_eq] at hcon
    obtain ⟨⟨h1, h2⟩, h3⟩ := hcon
    rw [hrU q hq h1, hcu] at h2
    exact hrc (Option.some_injective _ h2)
  have hfindP : s.projects.find? (projectScope p.projectId cu) = none :=
    List.find?_eq_none.mpr hP
  have hfindR : s.timeRecords.find? (recordScope r.recordId cu) = none :=
    List.find?_eq_none.mpr hR
  have hdelP : deleteFirst (projectScope p.projectId cu) s.projects = (s.projects, 0) :=
    deleteFirst_eq_of_forall_false (fun x hx => Bool.not_eq_true _ ▸ hP x hx)
  have hdelA : deleteFirst (activityScope a.activityId cu) s.activities = (s.activities, 0) :=
    deleteFirst_eq_of_forall_false (fun x hx => Bool.not_eq_true _ ▸ hA x hx)
  have hdelR : deleteFirst (recordScope r.recordId cu) s.timeRecords = (s.timeRecords, 0) :=
    deleteFirst_eq_of_forall_false (fun x hx => Bool.not_eq_true _ ▸ hR x hx)
  refine ⟨?_, ?_, ?_, ?_, ?_, ?_, ?_, ?_, ?_, ?_, ?_, ?_, ?_, ?_, ?_⟩
  · simp [get_project, hfindP]
  · simp [update_project, hfindP]
  · simp [update_project, hfindP, applyOps]
  · simp [delete_project, hdelP]
  · simp only [delete_project, hdelP, applyOps, List.foldl]
    exact onProjects_eq_self (by rw [hdelP])
  · intro l hl hmem
    unfold get_projects at hl
    by_cases hct : truthyOpt cu.companyId
    · simp only [hct, Bool.not_true, Bool.false_eq_true, if_false] at hl
      injection hl with hl
      subst hl
      have hpred := mem_take_filter hmem
      rw [hcu] at hpred
      simp only [beq_iff_eq, Option.some.injEq] at hpred
      exact hpc hpred
    · simp only [Bool.not_eq_true] at hct
      simp only [hct, Bool.not_false, if_true] at hl
      injection hl with hl
      subst hl
      cases hmem
  · simp [delete_activity, hdelA]
  · simp only [delete_activity, hdelA, applyOps, List.foldl]
    exact onActivities_eq_self (by rw [hdelA])
  · intro l hl hmem
    unfold get_activities at hl
    by_cases hct : truthyOpt cu.companyId
    · simp only [hct, Bool.not_true, Bool.false_eq_true, if_false] at hl
      injection hl with hl
      subst hl
      have hpred := mem_take_filter hmem
      simp only [Bool.and_eq_true, beq_iff_eq, hcu, Option.some.injEq] at hpred
      exact hac hpred.1
    · simp only [Bool.not_eq_true] at hct
      simp only [hct, Bool.not_false, if_true] at hl
      injection hl with hl
      subst hl
      cases hmem
  · simp [get_time_record, hfindR]
  · simp [update_time_record, hfindR]
  · simp [update_time_record, hfindR, applyOps]
  · simp [delete_time_record, hdelR]
  · simp only [delete_time_record, hdelR, applyOps, List.foldl]
    exact onTimeRecords_eq_self (by rw [hdelR])
  · intro l hl hmem
    unfold get_time_records at hl
    by_cases hct : truthyOpt cu.companyId
    · simp only [hct, Bool.not_true, Bool.false_eq_true, if_false] at hl
      injection hl with hl
      subst hl
      have hsorted := List.take_subset _ _ hmem
      have hfilter := (List.mem_insertionSort createdDesc).mp hsorted
      have hpred := (List.mem_filter.mp hfilter).2
      simp only [timeRecordQuery, Bool.and_eq_true, beq_iff_eq, hcu,
        Option.some.injEq] at hpred
      exact hrc hpred.1.1.1
    · simp only [Bool.not_eq_true] at hct
      simp only [hct, Bool.not_false, if_true] at hl
      injection hl with hl
      subst hl
      cases hmem

/-- Witness for C1 at the concrete two-tenant store: Bob (tenant coB) cannot
see or touch Alice's project, activity or time record. -/
theorem c1_cross_tenant_isolation_witness :
    (get_project "proj-1" uBob baseStore).1 = .error ⟨404, "Proyecto no encontrado"⟩ ∧
    (update_project "proj-1" ⟨some "hacked"⟩ uBob baseStore).1 =
      .error ⟨404, "Proyecto no encontrado"⟩ ∧
    applyOps baseStore (update_project "proj-1" ⟨some "hacked"⟩ uBob baseStore).2 =
      baseStore ∧
    (delete_project "proj-1" uBob baseStore).1 = .error ⟨404, "Proyecto no encontrado"⟩ ∧
    applyOps baseStore (delete_project "proj-1" uBob baseStore).2 = baseStore ∧
    (∀ l, (get_projects uBob baseStore).1 = .ok l → projAlpha ∉ l) ∧
    (delete_activity "act-1" uBob baseStore).1 = .error ⟨404, "Actividad no encontrada"⟩ ∧
    applyOps baseStore (delete_activity "act-1" uBob baseStore).2 = baseStore ∧
    (∀ l, (get_activities none uBob baseStore).1 = .ok l → actAlpha ∉ l) ∧
    (get_time_record "rec-1" uBob baseStore).1 = .error ⟨404, "Registro no encontrado"⟩ ∧
    (update_time_record "rec-1" ⟨some 999, none, none⟩ uBob ts0 baseStore).1 =
      .error ⟨404, "Registro no encontrado"⟩ ∧
    applyOps baseStore
      (update_time_record "rec-1" ⟨some 999, none, none⟩ uBob ts0 baseStore).2 =
      baseStore ∧
    (delete_time_record "rec-1" uBob baseStore).1 = .error ⟨404, "Registro no encontrado"⟩ ∧
    applyOps baseStore (delete_time_record "rec-1" uBob baseStore).2 = baseStore ∧
    (∀ l, (get_time_records none none uBob baseStore).1 = .ok l → recAlice ∉ l) :=
  c1_cross_tenant_isolation baseStore uBob "coB" (by decide)
    ⟨some "hacked"⟩ ⟨some 999, none, none⟩ ts0 none none
    projAlpha (by decide) (by decide)
    actAlpha (by decide) (by decide)
    recAlice (by decide) (by decide)

/- ============== C3: only the creator touches a time record ============== -/

/-- C3: a time record (id unique in the store) is invisible to every
authenticated caller of the same company whose uid differs from the record's
`userId`: read-one, update and delete on its exact id fail with 404 NotFound
and leave the store — hence the record — unchanged. -/
theorem c3_record_owner_only
    (s : Store) (cu : User) (r : TimeRecord)
    (_hsame : cu.companyId = some r.companyId)
    (hdiff : cu.uid ≠ r.userId)
    (hrU : ∀ q ∈ s.timeRecords, q.recordId = r.recordId → q = r)
    (dR : TimeRecordUpdate) (now : Timestamp) :
    (get_time_record r.recordId cu s).1 = .error ⟨404, "Registro no encontrado"⟩ ∧
    (update_time_record r.recordId dR cu now s).1 = .error ⟨404, "Registro no encontrado"⟩ ∧
    applyOps s (update_time_record r.recordId dR cu now s).2 = s ∧
    (delete_time_record r.recordId cu s).1 = .error ⟨404, "Registro no encontrado"⟩ ∧
    applyOps s (delete_time_record r.recordId cu s).2 = s := by
  have hR : ∀ q ∈ s.timeRecords, ¬ (recordScope r.recordId cu q = true) := by
    intro q hq hcon
    simp only [recordScope, Bool.and_eq_true, beq_iff_eq] at hcon
    obtain ⟨⟨h1, h2⟩, h3⟩ := hcon
    rw [hrU q hq h1] at h3
    exact hdiff h3.symm
  have hfindR : s.timeRecords.find? (recordScope r.recordId cu) = none :=
    List.find?_eq_none.mpr hR
  have hdelR : deleteFirst (recordScope r.recordId cu) s.timeRecords = (s.timeRecords, 0) :=
    deleteFirst_eq_of_forall_false (fun x hx => Bool.not_eq_true _ ▸ hR x hx)
  refine ⟨?_, ?_, ?_, ?_, ?_⟩
  · simp [get_time_record, hfindR]
  · simp [update_time_record, hfindR]
  · simp [update_time_record, hfindR, applyOps]
  · simp [delete_time_record, hdelR]
  · simp only [delete_time_record, hdelR, applyOps, List.foldl]
    exact onTimeRecords_eq_self (by rw [hdelR])

/-- Witness for C3 at the concrete store: Carol (same company as Bob, another
uid) cannot read, update or delete Bob's record. -/
theorem c3_record_owner_only_witness :
    (get_time_record "rec-2" uCarol baseStore).1 = .error ⟨404, "Registro no encontrado"⟩ ∧
    (update_time_record "rec-2" ⟨some 999, none, none⟩ uCarol ts0 baseStore).1 =
      .error ⟨404, "Registro no encontrado"⟩ ∧
    applyOps baseStore
      (update_time_record "rec-2" ⟨some 999, none, none⟩ uCarol ts0 baseStore).2 =
      baseStore ∧
    (delete_time_record "rec-2" uCarol baseStore).1 = .error ⟨404, "Registro no encontrado"⟩ ∧
    applyOps baseStore (delete_time_record "rec-2" uCarol baseStore).2 = baseStore :=
  c3_record_owner_only baseStore uCarol recBob (by decide) (by decide) (by decide)
    ⟨some 999, none, none⟩ ts0

/- ============== C2: session resolution paths ============== -/

/-- C2 counterexample: exact token match is NOT the sole authorization path.
With a bearer credential matching no stored token, but verifying at Google's
tokeninfo endpoint with the stored user's email, `get_current_user` resolves
the session instead of failing with Unauthorized. -/
theorem c2_counterexample_firebase_fallback :
    (∀ u ∈ c2Store.users, u.token ≠ some "cred-xyz") ∧
    get_current_user (some "cred-xyz") (some c2Resp) c2Store =
      .ok ⟨"u1", "a@x.com", "h", "U", none, "user", some "other-token", none, ts0⟩ := by
  constructor
  · decide
  · rfl

/-- C2 amended: session resolution succeeds exactly when the bearer credential
is present and either (a) equals some stored user's token, or (b) the Firebase
verification of the credential succeeds (tokeninfo answers 200 with the
project audience or any `azp`) and its NON-EMPTY email equals some stored
user's email (Python's `if email:` guard skips the lookup for an absent or
empty email); in every other case resolution fails with Unauthorized (401). -/
theorem c2_amended_token_or_firebase (cred : Option String) (resp : Option HttpResp)
    (s : Store) :
    ((∃ u, get_current_user cred resp s = .ok u) ↔
      ∃ t, cred = some t ∧
        ((∃ u ∈ s.users, u.token = some t) ∨
          ∃ fd, verify_firebase_token resp = some fd ∧
            ∃ e, fd.email = some e ∧ e ≠ "" ∧ ∃ u ∈ s.users, u.email = e)) ∧
    ((¬ ∃ u, get_current_user cred resp s = .ok u) →
      ∃ e : Err, get_current_user cred resp s = .error e ∧ e.status = 401) := by
  constructor
  · cases cred with
    | none => simp [get_current_user]
    | some t =>
      simp only [get_current_user, Option.some.injEq]
      cases hf : s.users.find? (fun u => u.token == some t) with
      | some u =>
        simp only [hf]
        constructor
        · intro _
          refine ⟨t, rfl, Or.inl ⟨u, List.mem_of_find?_eq_some hf, ?_⟩⟩
          simpa using List.find?_some hf
        · intro _
          exact ⟨u, rfl⟩
      | none =>
        simp only [hf]
        have hno : ∀ x ∈ s.users, ¬ ((x.token == some t) = true) :=
          List.find?_eq_none.mp hf
        cases hv : verify_firebase_token resp with
        | none =>
          simp only [hv]
          constructor
          · rintro ⟨u, hu⟩
            exact Except.noConfusion hu
          · rintro ⟨t2, ht2, hcase⟩
            cases ht2
            rcases hcase with ⟨u, hu, htok⟩ | ⟨fd, hfd, _⟩
            · exact absurd (by simp [htok]) (hno u hu)
            · exact Option.noConfusion hfd
        | some fd =>
          simp only [hv]
          cases he : fd.email with
          | none =>
            simp only [he]
            constructor
            · rintro ⟨u, hu⟩
              exact Except.noConfusion hu
            · rintro ⟨t2, ht2, hcase⟩
              cases ht2
              rcases hcase with ⟨u, hu, htok⟩ | ⟨fd2, hfd2, e, hee, _⟩
              · exact absurd (by simp [htok]) (hno u hu)
              · injection hfd2 with hq
                subst hq
                rw [he] at hee
                exact Option.noConfusion hee
          | some em =>
            simp only [he]
            by_cases hem : (em == "") = true
            · rw [if_pos hem]
              have hemq : em = "" := by simpa using hem
              constructor
              · rintro ⟨u, hu⟩
                exact Except.noConfusion hu
              · rintro ⟨t2, ht2, hcase⟩
                cases ht2
                rcases hcase with ⟨u, hu, htok⟩ | ⟨fd2, hfd2, e, hee, hne, _⟩
                · exact absurd (by simp [htok]) (hno u hu)
                · injection hfd2 with hq
                  subst hq
                  rw [he] at hee
                  injection hee with he2
                  exact absurd (he2 ▸ hemq) hne
            · rw [if_neg hem]
              cases hg : s.users.find? (fun u => u.email == em) with
              | some u2 =>
                simp only [hg]
                constructor
                · intro _
                  refine ⟨t, rfl, Or.inr ⟨fd, rfl, em, he, by simpa using hem,
                    u2, List.mem_of_find?_eq_some hg, ?_⟩⟩
                  simpa using List.find?_some hg
                · intro _
                  exact ⟨u2, rfl⟩
              | none =>
                simp only [hg]
                have hnoe : ∀ x ∈ s.users, ¬ ((x.email == em) = true) :=
                  List.find?_eq_none.mp hg
                constructor
                · rintro ⟨u, hu⟩
                  exact Except.noConfusion hu
                · rintro ⟨t2, ht2, hcase⟩
                  cases ht2
                  rcases hcase with ⟨u, hu, htok⟩ |
                    ⟨fd2, hfd2, e, hee, hne, u, hu, hue⟩
                  · exact absurd (by simp [htok]) (hno u hu)
                  · injection hfd2 with hq
                    subst hq
                    rw [he] at hee
                    injection hee with he2
                    subst he2
                    exact absurd (by simp [hue]) (hnoe u hu)
  · intro hnotok
    cases cred with
    | none => exact ⟨⟨401, "No autorizado"⟩, rfl, rfl⟩
    | some t =>
      cases hf : s.users.find? (fun u => u.token == some t) with
      | some u =>
        exact absurd ⟨u, by simp [get_current_user, hf]⟩ hnotok
      | none =>
        cases hv : verify_firebase_token resp with
        | none =>
          refine ⟨⟨401, "Token inválido"⟩, ?_, rfl⟩
          simp [get_current_user, hf, hv]
        | some fd =>
          cases he : fd.email with
          | none =>
            refine ⟨⟨401, "Token inválido"⟩, ?_, rfl⟩
            simp [get_current_user, hf, hv, he]
          | some em =>
            by_cases hem : (em == "") = true
            · refine ⟨⟨401, "Token inválido"⟩, ?_, rfl⟩
              simp [get_current_user, hf, hv, he, hem]
            · cases hg : s.users.find? (fun u => u.email == em) with
              | some u2 =>
                exact absurd
                  ⟨u2, by simp [get_current_user, hf, hv, he, hem, hg]⟩ hnotok
              | none =>
                refine ⟨⟨401, "Token inválido"⟩, ?_, rfl⟩
                simp [get_current_user, hf, hv, he, hem, hg]

/-- Witness for C2 at the concrete single-user store: presenting exactly the
stored token resolves the session through the token-match path. -/
theorem c2_amended_token_or_firebase_witness :
    ∃ u, get_current_user (some "other-token") none c2Store = .ok u := by
  obtain ⟨hiff, _⟩ := c2_amended_token_or_firebase (some "other-token") none c2Store
  exact hiff.mpr ⟨"other-token", rfl,
    Or.inl ⟨⟨"u1", "a@x.com", "h", "U", none, "user", some "other-token", none, ts0⟩,
      by decide, rfl⟩⟩

/- ============== C4: company-less callers ============== -/

/-- C4 counterexample: a caller with no `companyId` is NOT rejected with
BadRequest by every resource endpoint — the project list returns an empty
list, the time-record list returns an empty list, and the today-statistics
endpoint answers 200 with zero aggregates. -/
theorem c4_counterexample_no_badrequest :
    (get_projects uNoCompany baseStore).1 = .ok [] ∧
    (get_time_records none none uNoCompany baseStore).1 = .ok [] ∧
    (get_today_stats uNoCompany ts0 baseStore).1 = .ok ⟨10, 0, 0, 0, 0⟩ := by
  refine ⟨rfl, rfl, rfl⟩

/-- C4 amended: for a caller whose `companyId` is null, only the three create
endpoints reject with 400 BadRequest before any resource lookup (with no
mutation); the list and by-project endpoints return an empty list, read-one /
update / delete return 404 NotFound leaving the store unchanged, and the
today / week statistics endpoints answer with zero aggregates. -/
theorem c4_amended_company_guard
    (cu : User) (hc : cu.companyId = none) (s : Store)
    (dP : ProjectCreate) (dU : ProjectUpdate) (dA : ActivityCreate)
    (dT : TimeRecordCreate) (dR : TimeRecordUpdate)
    (fid : String) (now : Timestamp) (pid aid : Option String) (rid : String) :
    (create_project dP cu fid now).1 = .error ⟨400, "Necesitas pertenecer a una empresa"⟩ ∧
    (create_project dP cu fid now).2 = [] ∧
    (create_activity dA cu fid s).1 = .error ⟨400, "Necesitas pertenecer a una empresa"⟩ ∧
    (create_activity dA cu fid s).2 = [] ∧
    (create_time_record dT cu fid now s).1 =
      .error ⟨400, "Necesitas pertenecer a una empresa"⟩ ∧
    (create_time_record dT cu fid now s).2 = [] ∧
    (get_projects cu s).1 = .ok [] ∧
    (get_activities pid cu s).1 = .ok [] ∧
    (get_time_records pid aid cu s).1 = .ok [] ∧
    (get_project_stats cu s).1 = .ok [] ∧
    (get_project rid cu s).1 = .error ⟨404, "Proyecto no encontrado"⟩ ∧
    (update_project rid dU cu s).1 = .error ⟨404, "Proyecto no encontrado"⟩ ∧
    applyOps s (update_project rid dU cu s).2 = s ∧
    (delete_project rid cu s).1 = .error ⟨404, "Proyecto no encontrado"⟩ ∧
    applyOps s (delete_project rid cu s).2 = s ∧
    (delete_activity rid cu s).1 = .error ⟨404, "Actividad no encontrada"⟩ ∧
    applyOps s (delete_activity rid cu s).2 = s ∧
    (get_time_record rid cu s).1 = .error ⟨404, "Registro no encontrado"⟩ ∧
    (update_time_record rid dR cu now s).1 = .error ⟨404, "Registro no encontrado"⟩ ∧
    applyOps s (update_time_record rid dR cu now s).2 = s ∧
    (delete_time_record rid cu s).1 = .error ⟨404, "Registro no encontrado"⟩ ∧
    applyOps s (delete_time_record rid cu s).2 = s ∧
    (get_today_stats cu now s).1 = .ok ⟨now.day, 0, 0, 0, 0⟩ ∧
    (∃ w, (get_week_stats cu now s).1 = .ok w ∧
      w.totalPomodoros = 0 ∧ w.totalTime = 0) := by
  have hcf : truthyOpt cu.companyId = false := by rw [hc]; rfl
  have hP : ∀ q ∈ s.projects, ¬ (projectScope rid cu q = true) := by
    intro q _ hcon
    simp [projectScope, hc] at hcon
  have hA : ∀ q ∈ s.activities, ¬ (activityScope rid cu q = true) := by
    intro q _ hcon
    simp [activityScope, hc] at hcon
  have hR : ∀ q ∈ s.timeRecords, ¬ (recordScope rid cu q = true) := by
    intro q _ hcon
    simp [recordScope, hc] at hcon
  have hfindP : s.projects.find? (projectScope rid cu) = none :=
    List.find?_eq_none.mpr hP
  have hfindR : s.timeRecords.find? (recordScope rid cu) = none :=
    List.find?_eq_none.mpr hR
  have hdelP : deleteFirst (projectScope rid cu) s.projects = (s.projects, 0) :=
    deleteFirst_eq_of_forall_false (fun x hx => Bool.not_eq_true _ ▸ hP x hx)
  have hdelA : deleteFirst (activityScope rid cu) s.activities = (s.activities, 0) :=
    deleteFirst_eq_of_forall_false (fun x hx => Bool.not_eq_true _ ▸ hA x hx)
  have hdelR : deleteFirst (recordScope rid cu) s.timeRecords = (s.timeRecords, 0) :=
    deleteFirst_eq_of_forall_false (fun x hx => Bool.not_eq_true _ ▸ hR x hx)
  have hToday : s.timeRecords.filter (todayQuery cu now) = [] := by
    apply List.filter_eq_nil_iff.mpr
    intro q _ hcon
    simp [todayQuery, hc] at hcon
  have hWeek : s.timeRecords.filter (weekQuery cu) = [] := by
    apply List.filter_eq_nil_iff.mpr
    intro q _ hcon
    simp [weekQuery, hc] at hcon
  refine ⟨?_, ?_, ?_, ?_, ?_, ?_, ?_, ?_, ?_, ?_, ?_, ?_, ?_, ?_, ?_, ?_, ?_,
    ?_, ?_, ?_, ?_, ?_, ?_, ?_⟩
  · simp [create_project, hcf]
  · simp [create_project, hcf]
  · simp [create_activity, hcf]
  · simp [create_activity, hcf]
  · simp [create_time_record, hcf]
  · simp [create_time_record, hcf]
  · simp [get_projects, hcf]
  · simp [get_activities, hcf]
  · simp [get_time_records, hcf]
  · simp [get_project_stats, hcf]
  · simp [get_project, hfindP]
  · simp [update_project, hfindP]
  · simp [update_project, hfindP, applyOps]
  · simp [delete_project, hdelP]
  · simp only [delete_project, hdelP, applyOps, List.foldl]
    exact onProjects_eq_self (by rw [hdelP])
  · simp [delete_activity, hdelA]
  · simp only [delete_activity, hdelA, applyOps, List.foldl]
    exact onActivities_eq_self (by rw [hdelA])
  · simp [get_time_record, hfindR]
  · simp [update_time_record, hfindR]
  · simp [update_time_record, hfindR, applyOps]
  · simp [delete_time_record, hdelR]
  · simp only [delete_time_record, hdelR, applyOps, List.foldl]
    exact onTimeRecords_eq_self (by rw [hdelR])
  · simp [get_today_stats, hToday, sumPomodoros, sumMinutes]
  · refine ⟨_, rfl, ?_, ?_⟩ <;>
      simp [get_week_stats, hWeek, sumPomodoros, sumMinutes, List.map_map,
        Function.comp_def]

/-- Witness for C4 at the concrete store: the company-less caller sees the
amended behavior on every endpoint. -/
theorem c4_amended_company_guard_witness :
    (create_project ⟨"P"⟩ uNoCompany "fid" ts0).1 =
      .error ⟨400, "Necesitas pertenecer a una empresa"⟩ ∧
    (get_projects uNoCompany baseStore).1 = .ok [] ∧
    (get_project "proj-1" uNoCompany baseStore).1 =
      .error ⟨404, "Proyecto no encontrado"⟩ ∧
    applyOps baseStore (delete_project "proj-1" uNoCompany baseStore).2 = baseStore ∧
    (get_today_stats uNoCompany ts0 baseStore).1 = .ok ⟨10, 0, 0, 0, 0⟩ := by
  obtain ⟨h1, _, _, _, _, _, h7, _, _, _, h11, _, _, _, h15, _, _, _, _, _, _, _,
    h23, _⟩ :=
    c4_amended_company_guard uNoCompany (by decide) baseStore
      ⟨"P"⟩ ⟨some "n"⟩ ⟨"proj-1", "A"⟩ ⟨"proj-1", none, 25, 1, none⟩
      ⟨some 1, none, none⟩ "fid" ts0 none none "proj-1"
  exact ⟨h1, h7, h11, h15, h23⟩

/- ============== C8: partial update merge ============== -/

/-- C8 counterexample: an update CAN set a stored field to the empty string.
Bob's record has notes "afternoon"; a patch with `notes = ""` (a non-null but
empty value) overwrites the stored notes with the empty string. -/
theorem c8_counterexample_empty_overwrite :
    recBob ∈ baseStore.timeRecords ∧ recBob.notes = "afternoon" ∧
    ((update_time_record "rec-2" ⟨none, none, some ""⟩ uBob ⟨11, 0⟩ baseStore).1.map
      (fun r => r.notes)) = .ok "" ∧
    ((applyOps baseStore
        (update_time_record "rec-2" ⟨none, none, some ""⟩ uBob ⟨11, 0⟩ baseStore).2
      ).timeRecords.map TimeRecord.notes) = ["morning", ""] := by
  refine ⟨by decide, rfl, rfl, rfl⟩

/-- C8 amended: for an existing, owned time record (first id match in the
store), exactly the non-null patch fields overwrite the stored fields and
`updatedAt` is refreshed; every identity field keeps its prior value, every
other record is untouched, and no field can be set to null — but a string
field may be overwritten with any non-null string, including the empty
string. -/
theorem c8_amended_partial_update
    (s : Store) (cu : User) (r : TimeRecord) (rid : String)
    (hfirst : s.timeRecords.find? (fun x => x.recordId == rid) = some r)
    (hcomp : cu.companyId = some r.companyId)
    (huid : cu.uid = r.userId)
    (d : TimeRecordUpdate) (now : Timestamp) :
    (update_time_record rid d cu now s).1 = .ok (applyRecordPatch d now r) ∧
    (applyOps s (update_time_record rid d cu now s).2).timeRecords =
      updateFirst (fun x => x.recordId == rid) (applyRecordPatch d now)
        s.timeRecords ∧
    (applyRecordPatch d now r).durationMinutes =
      d.durationMinutes.getD r.durationMinutes ∧
    (applyRecordPatch d now r).pomodoros = d.pomodoros.getD r.pomodoros ∧
    (applyRecordPatch d now r).notes = d.notes.getD r.notes ∧
    (applyRecordPatch d now r).updatedAt = now ∧
    (applyRecordPatch d now r).recordId = r.recordId ∧
    (applyRecordPatch d now r).companyId = r.companyId ∧
    (applyRecordPatch d now r).userId = r.userId ∧
    (applyRecordPatch d now r).projectId = r.projectId ∧
    (applyRecordPatch d now r).activityId = r.activityId ∧
    (applyRecordPatch d now r).createdAt = r.createdAt ∧
    (∀ x ∈ s.timeRecords, x.recordId ≠ rid →
      x ∈ (applyOps s (update_time_record rid d cu now s).2).timeRecords) := by
  have hkey : (r.recordId == rid) = true := by simpa using List.find?_some hfirst
  have hscope : recordScope rid cu r = true := by
    simp only [recordScope, Bool.and_eq_true, beq_iff_eq] at hkey ⊢
    exact ⟨⟨hkey, by rw [hcomp]⟩, by rw [huid]⟩
  have hfind2 : s.timeRecords.find? (recordScope rid cu) = some r :=
    find?_of_first_key hfirst hscope
      (fun y hy => by
        simp only [recordScope, Bool.and_eq_true] at hy
        exact hy.1.1)
  have hfind3 : (updateFirst (fun x => x.recordId == rid) (applyRecordPatch d now)
      s.timeRecords).find? (fun x => x.recordId == rid) =
      some (applyRecordPatch d now r) :=
    find?_updateFirst_eq hfirst (fun y => rfl)
  refine ⟨?_, ?_, rfl, rfl, rfl, rfl, rfl, rfl, rfl, rfl, rfl, rfl, ?_⟩
  · simp [update_time_record, hfind2, onTimeRecords, hfind3]
  · simp [update_time_record, hfind2, onTimeRecords, hfind3, applyOps]
  · intro x hx hne
    simp only [update_time_record, hfind2]
    have hmem := mem_updateFirst_of_key_false (k := fun y => y.recordId == rid)
      (f := applyRecordPatch d now) hx (by simp [hne])
    simp [onTimeRecords, hfind3, applyOps]
    exact hmem

/-- Witness for C8 at the concrete store: patching Bob's record with a new
duration and empty notes updates exactly those fields plus `updatedAt`. -/
theorem c8_amended_partial_update_witness :
    (update_time_record "rec-2" ⟨some 45, none, some ""⟩ uBob ⟨11, 0⟩ baseStore).1 =
      .ok (applyRecordPatch ⟨some 45, none, some ""⟩ ⟨11, 0⟩ recBob) ∧
    (applyRecordPatch ⟨some 45, none, some ""⟩ ⟨11, 0⟩ recBob).durationMinutes = 45 ∧
    (applyRecordPatch ⟨some 45, none, some ""⟩ ⟨11, 0⟩ recBob).pomodoros =
      recBob.pomodoros ∧
    (applyRecordPatch ⟨some 45, none, some ""⟩ ⟨11, 0⟩ recBob).notes = "" ∧
    (applyRecordPatch ⟨some 45, none, some ""⟩ ⟨11, 0⟩ recBob).createdAt =
      recBob.createdAt := by
  obtain ⟨h1, _, h3, h4, h5, _, _, _, _, _, _, h12, _⟩ :=
    c8_amended_partial_update baseStore uBob recBob "rec-2" (by decide) (by decide)
      (by decide) ⟨some 45, none, some ""⟩ ⟨11, 0⟩
  exact ⟨h1, h3, h4, h5, h12⟩

/- ============== C6: source of the registered uid ============== -/

/-- C6 counterexample: the registered uid IS taken from request input when
the request supplies a `firebaseUid`.  Registering with
`firebaseUid = "attacker-uid"` stores and returns exactly that identifier,
not the server-generated one. -/
theorem c6_counterexample_uid_from_request :
    ((register ⟨"new@x.com", "pw", "N", none, some "attacker-uid"⟩
        "server-generated-uid" "fc" ts0 emptyStore).1.map
      (fun resp => resp.user.uid)) = .ok "attacker-uid" ∧
    ((applyOps emptyStore
        (register ⟨"new@x.com", "pw", "N", none, some "attacker-uid"⟩
          "server-generated-uid" "fc" ts0 emptyStore).2).users.map User.uid) =
      ["attacker-uid"] := by
  exact ⟨rfl, rfl⟩

/-- C6 amended: for a fresh email, the uid stored and returned is the
request's `firebaseUid` whenever a non-empty one is supplied; only otherwise
is it the newly server-generated identifier (`strOr data.firebaseUid fu`
captures Python's `data.firebaseUid or str(uuid.uuid4())`). -/
theorem c6_amended_uid_source
    (data : UserRegister) (fu fc : String) (now : Timestamp) (s : Store)
    (hfresh : ∀ u ∈ s.users, ¬ ((u.email == data.email) = true)) :
    ((register data fu fc now s).1.map (fun resp => resp.user.uid)) =
      .ok (strOr data.firebaseUid fu) ∧
    (applyOps s (register data fu fc now s).2).users.map User.uid =
      s.users.map User.uid ++ [strOr data.firebaseUid fu] := by
  have hfind : s.users.find? (fun u => u.email == data.email) = none :=
    List.find?_eq_none.mpr hfresh
  constructor
  · simp [register, hfind, Except.map]
  · by_cases hcn : truthyOpt data.companyName
    · simp [register, hfind, hcn, applyOps, onCompanies, onUsers]
    · simp only [Bool.not_eq_true] at hcn
      simp [register, hfind, hcn, applyOps, onUsers]

/-- Witness for C6: registering a fresh email without a firebaseUid yields
the server-generated uid. -/
theorem c6_amended_uid_source_witness :
    ((register ⟨"new@x.com", "pw", "N", some "Acme", none⟩ "fresh-uid" "fc" ts0
        baseStore).1.map (fun resp => resp.user.uid)) = .ok "fresh-uid" ∧
    (applyOps baseStore
      (register ⟨"new@x.com", "pw", "N", some "Acme", none⟩ "fresh-uid" "fc" ts0
        baseStore).2).users.map User.uid =
      baseStore.users.map User.uid ++ ["fresh-uid"] := by
  obtain ⟨h1, h2⟩ := c6_amended_uid_source
    ⟨"new@x.com", "pw", "N", some "Acme", none⟩ "fresh-uid" "fc" ts0 baseStore
    (by decide)
  exact ⟨h1, h2⟩

/- ============== C9: duration sign ============== -/

/-- C9 counterexample: the API accepts a negative `durationMinutes` — creating
a time record with duration -5 succeeds and stores -5, so not every stored
record has a non-negative duration. -/
theorem c9_counterexample_negative_duration :
    ((create_time_record ⟨"proj-1", none, -5, 1, none⟩ uAlice "rec-neg" ts0
        baseStore).1.map (fun r => r.durationMinutes)) = .ok (-5) ∧
    ((applyOps baseStore
        (create_time_record ⟨"proj-1", none, -5, 1, none⟩ uAlice "rec-neg" ts0
          baseStore).2).timeRecords.map TimeRecord.durationMinutes) =
      [25, 30, -5] := by
  exact ⟨rfl, rfl⟩

/-- C9 amended: create and update store the supplied integer duration
verbatim with no sign validation; non-negativity of all stored durations is
preserved exactly when the supplied values are non-negative. -/
theorem c9_amended_duration_preservation
    (s : Store) (hs : ∀ r ∈ s.timeRecords, 0 ≤ r.durationMinutes)
    (dataC : TimeRecordCreate) (dataU : TimeRecordUpdate) (cuC cuU : User)
    (fid rid : String) (now : Timestamp)
    (hdc : 0 ≤ dataC.durationMinutes)
    (hdu : ∀ v, dataU.durationMinutes = some v → 0 ≤ v) :
    (∀ r ∈ (applyOps s (create_time_record dataC cuC fid now s).2).timeRecords,
      0 ≤ r.durationMinutes) ∧
    (∀ r ∈ (applyOps s (update_time_record rid dataU cuU now s).2).timeRecords,
      0 ≤ r.durationMinutes) := by
  constructor
  · intro r hr
    unfold create_time_record at hr
    by_cases hct : truthyOpt cuC.companyId
    · simp only [hct, Bool.not_true, Bool.false_eq_true, if_false] at hr
      cases hfp : s.projects.find? (projectScope dataC.projectId cuC) with
      | none =>
        rw [hfp] at hr
        simp only [applyOps, List.foldl] at hr
        exact hs r hr
      | some p0 =>
        rw [hfp] at hr
        by_cases hat : truthyOpt dataC.activityId
        · simp only [hat, if_true] at hr
          cases hfa : s.activities.find? (fun a =>
              some a.activityId == dataC.activityId &&
                some a.companyId == cuC.companyId) with
          | none =>
            rw [hfa] at hr
            simp only [applyOps, List.foldl] at hr
            exact hs r hr
          | some a0 =>
            rw [hfa] at hr
            simp only [applyOps, List.foldl, onTimeRecords] at hr
            rcases List.mem_append.mp hr with h | h
            · exact hs r h
            · rcases List.mem_singleton.mp h with rfl
              exact hdc
        · simp only [Bool.not_eq_true] at hat
          simp only [hat, Bool.false_eq_true, if_false] at hr
          simp only [applyOps, List.foldl, onTimeRecords] at hr
          rcases List.mem_append.mp hr with h | h
          · exact hs r h
          · rcases List.mem_singleton.mp h with rfl
            exact hdc
    · simp only [Bool.not_eq_true] at hct
      simp only [hct, Bool.not_false, if_true] at hr
      simp only [applyOps, List.foldl] at hr
      exact hs r hr
  · intro r hr
    unfold update_time_record at hr
    cases hfr : s.timeRecords.find? (recordScope rid cuU) with
    | none =>
      rw [hfr] at hr
      simp only [applyOps, List.foldl] at hr
      exact hs r hr
    | some r0 =>
      simp only [hfr] at hr
      have hmem : r ∈ updateFirst (fun x => x.recordId == rid)
          (applyRecordPatch dataU now) s.timeRecords := by
        split at hr
        · simpa only [applyOps, List.foldl, onTimeRecords] using hr
        · simpa only [applyOps, List.foldl, onTimeRecords] using hr
      rcases mem_updateFirst hmem with h | ⟨y, hy, rfl⟩
      · exact hs r h
      · show 0 ≤ dataU.durationMinutes.getD y.durationMinutes
        cases hdm : dataU.durationMinutes with
        | none => simpa using hs y hy
        | some v => simpa using hdu v hdm

/-- Witness for C9: with the all-non-negative base store and non-negative
inputs, every stored duration stays non-negative after a create and after an
update. -/
theorem c9_amended_duration_preservation_witness :
    (∀ r ∈ (applyOps baseStore
        (create_time_record ⟨"proj-1", none, 25, 1, none⟩ uAlice "rec-new" ts0
          baseStore).2).timeRecords, 0 ≤ r.durationMinutes) ∧
    (∀ r ∈ (applyOps baseStore
        (update_time_record "rec-2" ⟨some 45, none, none⟩ uBob ts0
          baseStore).2).timeRecords, 0 ≤ r.durationMinutes) :=
  c9_amended_duration_preservation baseStore (by decide)
    ⟨"proj-1", none, 25, 1, none⟩ ⟨some 45, none, none⟩ uAlice uBob "rec-new"
    "rec-2" ts0 (by decide) (fun v hv => by
      injection hv with hv
      omega)

/- ============== C5: mutation discipline ============== -/

/-- C5 counterexample: registering with a company name performs TWO store
mutations in one request — a company insert followed by a user insert — so
not every handler performs at most one insert/update/delete. -/
theorem c5_counterexample_two_mutations :
    (register ⟨"new@x.com", "pw", "N", some "Acme", none⟩ "fu" "fc" ts0
      emptyStore).2.length = 2 ∧
    (applyOps emptyStore (register ⟨"new@x.com", "pw", "N", some "Acme", none⟩
      "fu" "fc" ts0 emptyStore).2).companies.length = 1 ∧
    (applyOps emptyStore (register ⟨"new@x.com", "pw", "N", some "Acme", none⟩
      "fu" "fc" ts0 emptyStore).2).users.length = 1 := by
  exact ⟨rfl, rfl, rfl⟩

/-- C5 amended: every handler performs at most TWO store mutations per
request — register-with-company and create-company perform two (company
insert plus user insert/update), every other handler at most one, the pure
read handlers none — and all mutations come after every validation, so every
request that ends in an error leaves the store unchanged. -/
theorem c5_amended_mutation_discipline (s : Store) :
    (∀ data fu fc now, (register data fu fc now s).2.length ≤ 2 ∧
      ∀ e, (register data fu fc now s).1 = .error e →
        applyOps s (register data fu fc now s).2 = s) ∧
    (∀ data now, (login data now s).2.length ≤ 1 ∧
      ∀ e, (login data now s).1 = .error e → applyOps s (login data now s).2 = s) ∧
    (∀ cu, (logout cu).2.length ≤ 1) ∧
    (∀ cu, (get_me cu s).2 = []) ∧
    (∀ data cu fc now, (create_company data cu fc now).2.length ≤ 2 ∧
      ∀ e, (create_company data cu fc now).1 = .error e →
        applyOps s (create_company data cu fc now).2 = s) ∧
    (∀ cu, (get_current_company cu s).2 = []) ∧
    (∀ data cu fid now, (create_project data cu fid now).2.length ≤ 1 ∧
      ∀ e, (create_project data cu fid now).1 = .error e →
        applyOps s (create_project data cu fid now).2 = s) ∧
    (∀ cu, (get_projects cu s).2 = []) ∧
    (∀ pid cu, (get_project pid cu s).2 = []) ∧
    (∀ pid d cu, (update_project pid d cu s).2.length ≤ 1 ∧
      ∀ e, (update_project pid d cu s).1 = .error e →
        applyOps s (update_project pid d cu s).2 = s) ∧
    (∀ pid cu, (delete_project pid cu s).2.length ≤ 1 ∧
      ∀ e, (delete_project pid cu s).1 = .error e →
        applyOps s (delete_project pid cu s).2 = s) ∧
    (∀ data cu fid, (create_activity data cu fid s).2.length ≤ 1 ∧
      ∀ e, (create_activity data cu fid s).1 = .error e →
        applyOps s (create_activity data cu fid s).2 = s) ∧
    (∀ pid cu, (get_activities pid cu s).2 = []) ∧
    (∀ aid cu, (delete_activity aid cu s).2.length ≤ 1 ∧
      ∀ e, (delete_activity aid cu s).1 = .error e →
        applyOps s (delete_activity aid cu s).2 = s) ∧
    (∀ data cu fid now, (create_time_record data cu fid now s).2.length ≤ 1 ∧
      ∀ e, (create_time_record data cu fid now s).1 = .error e →
        applyOps s (create_time_record data cu fid now s).2 = s) ∧
    (∀ pid aid cu, (get_time_records pid aid cu s).2 = []) ∧
    (∀ rid cu, (get_time_record rid cu s).2 = []) ∧
    (∀ rid d cu now, (update_time_record rid d cu now s).2.length ≤ 1 ∧
      ∀ e, (update_time_record rid d cu now s).1 = .error e →
        applyOps s (update_time_record rid d cu now s).2 = s) ∧
    (∀ rid cu, (delete_time_record rid cu s).2.length ≤ 1 ∧
      ∀ e, (delete_time_record rid cu s).1 = .error e →
        applyOps s (delete_time_record rid cu s).2 = s) ∧
    (∀ cu now, (get_today_stats cu now s).2 = []) ∧
    (∀ cu now, (get_week_stats cu now s).2 = []) ∧
    (∀ cu, (get_project_stats cu s).2 = []) := by
  refine ⟨?_, ?_, ?_, ?_, ?_, ?_, ?_, ?_, ?_, ?_, ?_, ?_, ?_, ?_, ?_, ?_, ?_,
    ?_, ?_, ?_, ?_, ?_⟩
  · intro data fu fc now
    cases hfe : s.users.find? (fun u => u.email == data.email) with
    | some u => simp [register, hfe, applyOps]
    | none =>
      by_cases hcn : truthyOpt data.companyName
      · simp [register, hfe, hcn]
      · simp only [Bool.not_eq_true] at hcn
        simp [register, hfe, hcn]
  · intro data now
    cases hfl : s.users.find?
        (fun u => u.email == data.email && u.password == sha256Hex data.password) with
    | some u => simp [login, hfl]
    | none => simp [login, hfl, applyOps]
  · intro cu
    simp [logout]
  · intro cu
    rfl
  · intro data cu fc now
    by_cases hcn : truthyOpt cu.companyId
    · simp [create_company, hcn, applyOps]
    · simp only [Bool.not_eq_true] at hcn
      simp [create_company, hcn]
  · intro cu
    unfold get_current_company
    split
    · rfl
    · split <;> rfl
  · intro data cu fid now
    by_cases hct : truthyOpt cu.companyId
    · simp [create_project, hct]
    · simp only [Bool.not_eq_true] at hct
      simp [create_project, hct, applyOps]
  · intro cu
    unfold get_projects
    split <;> rfl
  · intro pid cu
    unfold get_project
    split <;> rfl
  · intro pid d cu
    cases hfp : s.projects.find? (projectScope pid cu) with
    | none => simp [update_project, hfp, applyOps]
    | some q =>
      have hq : projectScope pid cu q = true := List.find?_some hfp
      have hkq : (q.projectId == pid) = true := by
        simp only [projectScope, Bool.and_eq_true] at hq
        exact hq.1
      obtain ⟨x, hx⟩ : ∃ x, s.projects.find? (fun p => p.projectId == pid) = some x :=
        Option.isSome_iff_exists.mp
          (List.find?_isSome.mpr ⟨q, List.mem_of_find?_eq_some hfp, hkq⟩)
      cases hname : d.name with
      | none => simp [update_project, hfp, hname, hx, applyOps]
      | some n =>
        have hre := find?_updateFirst_eq (f := fun p => { p with name := n }) hx
          (fun y => rfl)
        simp [update_project, hfp, hname, applyOps, onProjects, hre]
  · intro pid cu
    constructor
    · unfold delete_project
      split <;> simp
    · intro e he
      have hz : (deleteFirst (projectScope pid cu) s.projects).2 = 0 := by
        by_contra hnz
        simp [delete_project, beq_iff_eq, hnz] at he
      have h2 : (delete_project pid cu s).2 =
          [onProjects (fun ps => (deleteFirst (projectScope pid cu) ps).1)] := by
        unfold delete_project
        split <;> rfl
      rw [h2]
      simp only [applyOps, List.foldl]
      exact onProjects_eq_self (by rw [deleteFirst_eq_of_count_zero hz])
  · intro data cu fid
    by_cases hct : truthyOpt cu.companyId
    · cases hfp : s.projects.find? (projectScope data.projectId cu) with
      | none => simp [create_activity, hct, hfp, applyOps]
      | some p0 => simp [create_activity, hct, hfp]
    · simp only [Bool.not_eq_true] at hct
      simp [create_activity, hct, applyOps]
  · intro pid cu
    unfold get_activities
    split <;> rfl
  · intro aid cu
    constructor
    · unfold delete_activity
      split <;> simp
    · intro e he
      have hz : (deleteFirst (activityScope aid cu) s.activities).2 = 0 := by
        by_contra hnz
        simp [delete_activity, beq_iff_eq, hnz] at he
      have h2 : (delete_activity aid cu s).2 =
          [onActivities (fun as => (deleteFirst (activityScope aid cu) as).1)] := by
        unfold delete_activity
        split <;> rfl
      rw [h2]
      simp only [applyOps, List.foldl]
      exact onActivities_eq_self (by rw [deleteFirst_eq_of_count_zero hz])
  · intro data cu fid now
    by_cases hct : truthyOpt cu.companyId
    · cases hfp : s.projects.find? (projectScope data.projectId cu) with
      | none => simp [create_time_record, hct, hfp, applyOps]
      | some p0 =>
        by_cases hat : truthyOpt data.activityId
        · cases hfa : s.activities.find? (fun a =>
              some a.activityId == data.activityId &&
                some a.companyId == cu.companyId) with
          | none => simp [create_time_record, hct, hfp, hat, hfa, applyOps]
          | some a0 => simp [create_time_record, hct, hfp, hat, hfa]
        · simp only [Bool.not_eq_true] at hat
          simp [create_time_record, hct, hfp, hat]
    · simp only [Bool.not_eq_true] at hct
      simp [create_time_record, hct, applyOps]
  · intro pid aid cu
    unfold get_time_records
    split <;> rfl
  · intro rid cu
    unfold get_time_record
    split <;> rfl
  · intro rid d cu now
    cases hfr : s.timeRecords.find? (recordScope rid cu) with
    | none => simp [update_time_record, hfr, applyOps]
    | some q =>
      have hq : recordScope rid cu q = true := List.find?_some hfr
      have hkq : (q.recordId == rid) = true := by
        simp only [recordScope, Bool.and_eq_true] at hq
        exact hq.1.1
      obtain ⟨x, hx⟩ : ∃ x, s.timeRecords.find? (fun r => r.recordId == rid) = some x :=
        Option.isSome_iff_exists.mp
          (List.find?_isSome.mpr ⟨q, List.mem_of_find?_eq_some hfr, hkq⟩)
      have hre := find?_updateFirst_eq (f := applyRecordPatch d now) hx
        (fun y => rfl)
      simp [update_time_record, hfr, applyOps, onTimeRecords, hre]
  · intro rid cu
    constructor
    · unfold delete_time_record
      split <;> simp
    · intro e he
      have hz : (deleteFirst (recordScope rid cu) s.timeRecords).2 = 0 := by
        by_contra hnz
        simp [delete_time_record, beq_iff_eq, hnz] at he
      have h2 : (delete_time_record rid cu s).2 =
          [onTimeRecords (fun rs => (deleteFirst (recordScope rid cu) rs).1)] := by
        unfold delete_time_record
        split <;> rfl
      rw [h2]
      simp only [applyOps, List.foldl]
      exact onTimeRecords_eq_self (by rw [deleteFirst_eq_of_count_zero hz])
  · intro cu now
    rfl
  · intro cu now
    rfl
  · intro cu
    unfold get_project_stats
    split <;> rfl

/-- Witness for C5: a failed duplicate-email registration leaves the base
store unchanged, and create-company is within the two-mutation bound. -/
theorem c5_amended_mutation_discipline_witness :
    applyOps baseStore (register ⟨"alice@x.com", "pw", "A", none, none⟩ "fu2" "fc2"
      ts0 baseStore).2 = baseStore ∧
    (create_company ⟨"NewCo"⟩ uBob "fc3" ts0).2.length ≤ 2 := by
  obtain ⟨hreg, _, _, _, hcc, _⟩ := c5_amended_mutation_discipline baseStore
  refine ⟨?_, (hcc ⟨"NewCo"⟩ uBob "fc3" ts0).1⟩
  exact (hreg ⟨"alice@x.com", "pw", "A", none, none⟩ "fu2" "fc2" ts0).2
    ⟨400, "El correo ya está registrado"⟩ (by rfl)

end Pomodoro
